import Mathlib

/-!
Verification of the alx-polly poll CRUD application.

The development shallowly embeds the poll mutation/voting logic of the
repository: the three persisted tables (`polls`, `poll_options`, `votes`),
the validation schemas, the `PollDatabase` data-access operations, and the
server actions / API route handlers that orchestrate them.  Storage calls
that can fail in the real system are resolved by explicit Boolean outcome
parameters; row identifiers are modelled as naturals drawn from a
freshness counter carried in the database state.
-/

namespace AlxPolly

/-! ## JS string primitives

JavaScript `trim` / `toLowerCase` are embedded character-wise (ASCII
whitespace; `Char.toLower` mirrors `toLowerCase` on the code points the
application stores). -/

/-- ASCII whitespace recognised by JS `String.prototype.trim`. -/
def jsWhitespaceChar (c : Char) : Bool :=
  c = ' ' || c = '\t' || c = '\n' || c = '\r'

/-- JS `s.trim()`. -/
def jsTrim (s : String) : String :=
  String.mk (((s.data.dropWhile jsWhitespaceChar).reverse.dropWhile jsWhitespaceChar).reverse)

/-- JS `s.toLowerCase()`. -/
def jsToLower (s : String) : String :=
  String.mk (s.data.map Char.toLower)

/-- JS `s.length` (UTF-16 length; the stored texts are plain text, embedded
as the character count). -/
def jsLength (s : String) : Nat := s.data.length

/-- The normalization `text.trim().toLowerCase()` used by every
duplicate-option comparison in the repository. -/
def normText (s : String) : String := jsToLower (jsTrim s)

/-! ## First-occurrence duplicate partitioning

Both cleanup implementations partition an option list by normalized text
into first occurrences (kept) and later occurrences (duplicates):

* `jsUniqueBy` is the `filter((option, index, self) => index ===
  self.findIndex(o => …))` idiom of `PollDatabase.removeDuplicateOptions`
  and `cleanupPollDuplicates`;
* `dedupByAux` is the `Set`-based loop of the legacy cleanup endpoint
  (`uniqueTexts` / `uniqueOptions` / `duplicateIds`).

They are proved equal (`jsUniqueBy_eq_dedupByAux`). -/

/-- Keep the first occurrence of each key, given an accumulator `seen` of
keys already taken. -/
def dedupByAux {α κ : Type} [DecidableEq κ] (k : α → κ) (seen : List κ) : List α → List α
  | [] => []
  | x :: rest =>
    if k x ∈ seen then dedupByAux k seen rest
    else x :: dedupByAux k (k x :: seen) rest

/-- JS `xs.filter((x, i, self) => i === self.findIndex(y => k y = k x))`. -/
def jsUniqueBy {α κ : Type} [DecidableEq κ] (k : α → κ) (xs : List α) : List α :=
  (xs.enum.filter
    (fun p => decide (xs.findIdx (fun y => decide (k y = k p.2)) = p.1))).map Prod.snd

theorem enumFrom_add {α : Type} (m : Nat) (l : List α) :
    ∀ n, l.enumFrom (m + n) = (l.enumFrom n).map (fun p => (m + p.1, p.2)) := by
  induction l with
  | nil => intro n; rfl
  | cons a l ih =>
    intro n
    simp only [List.enumFrom_cons, List.map_cons]
    refine congrArg₂ _ rfl ?_
    rw [show m + n + 1 = m + (n + 1) by omega]
    exact ih (n + 1)

theorem enumFrom_one {α : Type} (l : List α) :
    l.enumFrom 1 = l.enum.map (fun p => (1 + p.1, p.2)) := by
  have h := enumFrom_add 1 l 0
  simpa [List.enum_eq_enumFrom] using h

/-- The filter condition of `jsUniqueBy`, generalized by a list `S` of
already-claimed keys. -/
def uniqCond {α κ : Type} [DecidableEq κ] (k : α → κ) (S : List κ) (l : List α)
    (p : Nat × α) : Bool :=
  decide (k p.2 ∉ S) && decide (l.findIdx (fun y => decide (k y = k p.2)) = p.1)

theorem uniq_master {α κ : Type} [DecidableEq κ] (k : α → κ) :
    ∀ (l : List α) (S : List κ),
      (l.enum.filter (uniqCond k S l)).map Prod.snd = dedupByAux k S l := by
  intro l
  induction l with
  | nil => intro S; simp [dedupByAux]
  | cons z l ih =>
    intro S
    rw [List.enum_cons, enumFrom_one]
    rw [List.filter_cons]
    have hhead : uniqCond k S (z :: l) (0, z) = decide (k z ∉ S) := by
      simp [uniqCond, List.findIdx_cons]
    rw [hhead]
    by_cases hz : k z ∈ S
    · rw [if_neg (by simp [hz])]
      have hcond : (uniqCond k S (z :: l)) ∘ (fun p : Nat × α => (1 + p.1, p.2))
          = uniqCond k S l := by
        funext p
        simp only [Function.comp, uniqCond]
        by_cases hy : k p.2 ∈ S
        · simp [hy]
        · have hne : ¬ k z = k p.2 := fun h => hy (h ▸ hz)
          have hidx : (z :: l).findIdx (fun y => decide (k y = k p.2))
              = l.findIdx (fun y => decide (k y = k p.2)) + 1 := by
            simp [List.findIdx_cons, hne]
          rw [hidx, decide_eq_decide.mpr (show
            (l.findIdx (fun y => decide (k y = k p.2)) + 1 = 1 + p.1)
              ↔ (l.findIdx (fun y => decide (k y = k p.2)) = p.1) by omega)]
      rw [List.filter_map, hcond, List.map_map]
      have hsnd : (Prod.snd ∘ fun p : Nat × α => (1 + p.1, p.2)) = (Prod.snd : Nat × α → α) := by
        funext p; rfl
      rw [hsnd, ih S, dedupByAux, if_pos hz]
    · rw [if_pos (by simp [hz])]
      have hcond : (uniqCond k S (z :: l)) ∘ (fun p : Nat × α => (1 + p.1, p.2))
          = uniqCond k (k z :: S) l := by
        funext p
        simp only [Function.comp, uniqCond]
        by_cases hzy : k z = k p.2
        · have hmem : k p.2 ∈ k z :: S := by rw [← hzy]; exact List.mem_cons_self _ _
          have hidx : (z :: l).findIdx (fun y => decide (k y = k p.2)) = 0 := by
            simp [List.findIdx_cons, hzy]
          rw [hidx]
          have h0 : decide (0 = 1 + p.1) = false := decide_eq_false (by omega)
          have h2 : decide (k p.2 ∉ k z :: S) = false := decide_eq_false (by simp [hmem])
          rw [h0, h2]
          simp
        · have hidx : (z :: l).findIdx (fun y => decide (k y = k p.2))
              = l.findIdx (fun y => decide (k y = k p.2)) + 1 := by
            simp [List.findIdx_cons, hzy]
          have hmem : (k p.2 ∉ k z :: S) ↔ (k p.2 ∉ S) := by
            constructor
            · intro hn hs; exact hn (List.mem_cons_of_mem _ hs)
            · intro hn hm
              rcases List.mem_cons.mp hm with he | hs
              · exact hzy he.symm
              · exact hn hs
          rw [hidx, decide_eq_decide.mpr (show
            (l.findIdx (fun y => decide (k y = k p.2)) + 1 = 1 + p.1)
              ↔ (l.findIdx (fun y => decide (k y = k p.2)) = p.1) by omega),
            decide_eq_decide.mpr hmem]
      have hsnd : (Prod.snd ∘ fun p : Nat × α => (1 + p.1, p.2)) = (Prod.snd : Nat × α → α) := by
        funext p; rfl
      rw [List.filter_map, hcond, List.map_cons, List.map_map, hsnd, ih (k z :: S),
        dedupByAux, if_neg hz]

/-- The two source implementations of "keep the first occurrence of each
normalized text" agree. -/
theorem jsUniqueBy_eq_dedupByAux {α κ : Type} [DecidableEq κ] (k : α → κ) (xs : List α) :
    jsUniqueBy k xs = dedupByAux k [] xs := by
  rw [← uniq_master k xs []]
  rfl

theorem dedupByAux_sublist {α κ : Type} [DecidableEq κ] (k : α → κ) :
    ∀ (l : List α) (S : List κ), (dedupByAux k S l).Sublist l := by
  intro l
  induction l with
  | nil => intro S; simp [dedupByAux]
  | cons z l ih =>
    intro S
    rw [dedupByAux]
    by_cases hz : k z ∈ S
    · rw [if_pos hz]; exact (ih S).cons z
    · rw [if_neg hz]; exact (ih (k z :: S)).cons₂ z

theorem mem_dedupByAux_not_seen {α κ : Type} [DecidableEq κ] (k : α → κ) :
    ∀ (l : List α) (S : List κ) {x : α}, x ∈ dedupByAux k S l → k x ∉ S := by
  intro l
  induction l with
  | nil => intro S x hx; simp [dedupByAux] at hx
  | cons z l ih =>
    intro S x hx
    rw [dedupByAux] at hx
    by_cases hz : k z ∈ S
    · rw [if_pos hz] at hx; exact ih S hx
    · rw [if_neg hz] at hx
      rcases List.mem_cons.mp hx with h | h
      · subst h; exact hz
      · exact fun hm => ih (k z :: S) h (List.mem_cons_of_mem _ hm)

theorem key_covered_dedupByAux {α κ : Type} [DecidableEq κ] (k : α → κ) :
    ∀ (l : List α) (S : List κ) {x : α}, x ∈ l → k x ∉ S →
      k x ∈ (dedupByAux k S l).map k := by
  intro l
  induction l with
  | nil => intro S x hx; simp at hx
  | cons z l ih =>
    intro S x hx hks
    rw [dedupByAux]
    by_cases hz : k z ∈ S
    · rw [if_pos hz]
      rcases List.mem_cons.mp hx with h | h
      · subst h; exact absurd hz hks
      · exact ih S h hks
    · rw [if_neg hz]
      rcases List.mem_cons.mp hx with h | h
      · subst h; simp
      · by_cases hkz : k x = k z
        · simp [hkz]
        · have hxk : k x ∉ k z :: S := by simp [hkz, hks]
          rw [List.map_cons]
          exact List.mem_cons_of_mem _ (ih (k z :: S) h hxk)

theorem dedupByAux_keys_nodup {α κ : Type} [DecidableEq κ] (k : α → κ) :
    ∀ (l : List α) (S : List κ), ((dedupByAux k S l).map k).Nodup := by
  intro l
  induction l with
  | nil => intro S; simp [dedupByAux]
  | cons z l ih =>
    intro S
    rw [dedupByAux]
    by_cases hz : k z ∈ S
    · rw [if_pos hz]; exact ih S
    · rw [if_neg hz]
      rw [List.map_cons, List.nodup_cons]
      refine ⟨?_, ih (k z :: S)⟩
      intro hmem
      rcases List.mem_map.mp hmem with ⟨x, hx, hkx⟩
      exact mem_dedupByAux_not_seen k l (k z :: S) hx (hkx ▸ List.mem_cons_self _ _)

theorem dedupByAux_eq_self {α κ : Type} [DecidableEq κ] (k : α → κ) :
    ∀ (l : List α) (S : List κ), (l.map k).Nodup → (∀ x ∈ l, k x ∉ S) →
      dedupByAux k S l = l := by
  intro l
  induction l with
  | nil => intro S _ _; rfl
  | cons z l ih =>
    intro S hnd hns
    rw [dedupByAux, if_neg (hns z (List.mem_cons_self _ _))]
    refine congrArg _ (ih (k z :: S) (List.nodup_cons.mp (by simpa using hnd)).2 ?_)
    intro x hx
    have hne : k x ≠ k z := by
      intro h
      exact (List.nodup_cons.mp (by simpa using hnd)).1 (h ▸ List.mem_map_of_mem k hx)
    simp [hne, hns x (List.mem_cons_of_mem _ hx)]

theorem dedupByAux_length {α κ : Type} [DecidableEq κ] (k : α → κ) :
    ∀ (l : List α) (S : List κ),
      (dedupByAux k S l).length = ((l.map k).toFinset \ S.toFinset).card := by
  intro l
  induction l with
  | nil => intro S; simp [dedupByAux]
  | cons z l ih =>
    intro S
    rw [dedupByAux]
    by_cases hz : k z ∈ S
    · rw [if_pos hz, ih S, List.map_cons, List.toFinset_cons,
        Finset.insert_sdiff_of_mem _ (List.mem_toFinset.mpr hz)]
    · rw [if_neg hz, List.length_cons, ih (k z :: S)]
      rw [List.map_cons, List.toFinset_cons, List.toFinset_cons]
      rw [Finset.sdiff_insert,
        Finset.insert_sdiff_of_not_mem _ (fun h => hz (List.mem_toFinset.mp h))]
      by_cases hm : k z ∈ (l.map k).toFinset \ S.toFinset
      · rw [Finset.card_erase_of_mem hm, Finset.card_insert_of_mem hm]
        have hpos : 1 ≤ ((l.map k).toFinset \ S.toFinset).card := Finset.card_pos.mpr ⟨_, hm⟩
        omega
      · rw [Finset.erase_eq_of_not_mem hm, Finset.card_insert_of_not_mem hm]

/-- A sublist of a list with distinct keys is recovered by filtering the
list for the sublist's keys. -/
theorem filter_key_mem_of_sublist {α ι : Type} [DecidableEq ι] (key : α → ι) :
    ∀ {s l : List α}, s.Sublist l → ((l.map key).Nodup) →
      l.filter (fun x => decide (key x ∈ s.map key)) = s := by
  intro s l hs
  induction hs with
  | slnil => intro _; rfl
  | @cons l₁ l₂ a h ih =>
    intro hnd
    rw [List.map_cons, List.nodup_cons] at hnd
    rw [List.filter_cons]
    have hka : key a ∉ l₁.map key := fun hm =>
      hnd.1 (List.Sublist.subset (List.Sublist.map key h) hm)
    rw [if_neg (by simpa using hka)]
    exact ih hnd.2
  | @cons₂ l₁ l₂ a h ih =>
    intro hnd
    rw [List.map_cons, List.nodup_cons] at hnd
    rw [List.filter_cons, if_pos (by simp)]
    refine congrArg _ ?_
    have hq : l₂.filter (fun x => decide (key x ∈ (a :: l₁).map key))
        = l₂.filter (fun x => decide (key x ∈ l₁.map key)) := by
      apply List.filter_congr
      intro x hx
      have hne : key x ≠ key a := by
        intro hxa
        exact hnd.1 (hxa ▸ List.mem_map_of_mem key hx)
      simp [List.mem_cons, hne]
    rw [hq]
    exact ih hnd.2

/-! ## Option rows and `PollDatabase.removeDuplicateOptions` -/

/-- Row identifiers (uuid strings) are modelled as naturals; `0` plays the
role of the JS-falsy identifier for the `filter(Boolean)` step. -/
abbrev Id := Nat

/-- A `poll_options` table row. -/
structure OptRow where
  id : Id
  pollId : Id
  text : String
deriving DecidableEq

/-- The comparison key `option.text.trim().toLowerCase()`. -/
def optKey (o : OptRow) : String := normText o.text

/-- `uniqueOptions`: keep the first occurrence of each normalized text
(`options.filter((option, index, self) => index === self.findIndex(o =>
o.text.trim().toLowerCase() === option.text.trim().toLowerCase()))`). -/
def uniqueOptions (opts : List OptRow) : List OptRow := jsUniqueBy optKey opts

/-- `duplicateIds`: ids of the rows that are not among `uniqueOptions`
(`options.filter(option => !uniqueOptions.some(unique => unique.id ===
option.id)).map(option => option.id!).filter(Boolean)`). -/
def duplicateIds (opts : List OptRow) : List Id :=
  ((opts.filter (fun o => !((uniqueOptions opts).any (fun u => u.id == o.id)))).map
    (fun o => o.id)).filter (fun i => !(i == 0))

/-- Result of one `removeDuplicateOptions` run over a poll's option rows. -/
structure CleanupOutcome where
  remaining : List OptRow
  removed : Nat
deriving DecidableEq

/-- `PollDatabase.removeDuplicateOptions` acting on the option rows of one
poll: the rows whose id is in `duplicateIds` are removed by the
`delete().in("id", duplicateIds)` call, and the count of deleted ids is
returned. -/
def removeDuplicateOptions (opts : List OptRow) : CleanupOutcome :=
  { remaining := opts.filter (fun o => decide (o.id ∉ duplicateIds opts))
    removed := (duplicateIds opts).length }

theorem removeDuplicateOptions_remaining (opts : List OptRow) :
    (removeDuplicateOptions opts).remaining
      = opts.filter (fun o => decide (o.id ∉ duplicateIds opts)) := rfl

theorem removeDuplicateOptions_removed (opts : List OptRow) :
    (removeDuplicateOptions opts).removed = (duplicateIds opts).length := rfl

theorem any_id_beq (s : List OptRow) (i : Id) :
    s.any (fun u => u.id == i) = decide (i ∈ s.map (fun u => u.id)) := by
  induction s with
  | nil => simp
  | cons a s ih =>
    rw [List.any_cons, ih, List.map_cons]
    by_cases h : a.id = i
    · subst h; simp
    · have h2 : ¬ i = a.id := fun hh => h hh.symm
      simp [List.mem_cons, h, h2]

theorem duplicateIds_eq (opts : List OptRow) (hne : ∀ o ∈ opts, o.id ≠ 0) :
    duplicateIds opts
      = (opts.filter (fun o => !((uniqueOptions opts).any (fun u => u.id == o.id)))).map
          (fun o => o.id) := by
  unfold duplicateIds
  apply List.filter_eq_self.mpr
  intro i hi
  rcases List.mem_map.mp hi with ⟨o, ho, rfl⟩
  have hmem : o ∈ opts := List.mem_of_mem_filter ho
  simp [hne o hmem]

theorem mem_duplicateIds_iff (opts : List OptRow) (hne : ∀ o ∈ opts, o.id ≠ 0)
    {o : OptRow} (ho : o ∈ opts) :
    o.id ∈ duplicateIds opts ↔ o.id ∉ (uniqueOptions opts).map (fun u => u.id) := by
  rw [duplicateIds_eq opts hne]
  constructor
  · intro hi hu
    rcases List.mem_map.mp hi with ⟨o', ho', hid⟩
    have h1 : (!((uniqueOptions opts).any (fun u => u.id == o'.id))) = true :=
      (List.mem_filter.mp ho').2
    rcases List.mem_map.mp hu with ⟨u, hu', hui⟩
    have h2 : (uniqueOptions opts).any (fun u => u.id == o'.id) = true :=
      List.any_eq_true.mpr ⟨u, hu', by rw [hui, hid]; simp⟩
    rw [h2] at h1
    exact Bool.false_ne_true h1
  · intro hnu
    refine List.mem_map.mpr ⟨o, List.mem_filter.mpr ⟨ho, ?_⟩, rfl⟩
    rw [any_id_beq]
    simpa using hnu

theorem remaining_eq_uniqueOptions (opts : List OptRow)
    (hids : (opts.map (fun o => o.id)).Nodup) (hne : ∀ o ∈ opts, o.id ≠ 0) :
    (removeDuplicateOptions opts).remaining = uniqueOptions opts := by
  rw [removeDuplicateOptions_remaining]
  have hsub : (uniqueOptions opts).Sublist opts := by
    rw [uniqueOptions, jsUniqueBy_eq_dedupByAux]
    exact dedupByAux_sublist _ _ _
  have hconv : opts.filter (fun o => decide (o.id ∉ duplicateIds opts))
      = opts.filter (fun o => decide (o.id ∈ (uniqueOptions opts).map (fun u => u.id))) := by
    apply List.filter_congr
    intro o ho
    exact decide_eq_decide.mpr (by rw [mem_duplicateIds_iff opts hne ho, not_not])
  rw [hconv]
  exact filter_key_mem_of_sublist (fun o => o.id) hsub hids

theorem length_filter_add_length_filter_not {α : Type} (p : α → Bool) (l : List α) :
    (l.filter p).length + (l.filter (fun a => !(p a))).length = l.length := by
  induction l with
  | nil => rfl
  | cons a l ih =>
    rw [List.filter_cons, List.filter_cons]
    cases h : p a <;> simp [h, ← ih] <;> omega

theorem removed_count (opts : List OptRow)
    (hids : (opts.map (fun o => o.id)).Nodup) (hne : ∀ o ∈ opts, o.id ≠ 0) :
    (removeDuplicateOptions opts).removed
      = opts.length - (removeDuplicateOptions opts).remaining.length := by
  have hsub : (uniqueOptions opts).Sublist opts := by
    rw [uniqueOptions, jsUniqueBy_eq_dedupByAux]
    exact dedupByAux_sublist _ _ _
  rw [removeDuplicateOptions_removed, remaining_eq_uniqueOptions opts hids hne,
    duplicateIds_eq opts hne, List.length_map]
  have hconv : opts.filter (fun o => !((uniqueOptions opts).any (fun u => u.id == o.id)))
      = opts.filter (fun o =>
          !(decide (o.id ∈ (uniqueOptions opts).map (fun u => u.id)))) := by
    apply List.filter_congr
    intro o _
    rw [any_id_beq]
  rw [hconv]
  have huniq : opts.filter
      (fun o => decide (o.id ∈ (uniqueOptions opts).map (fun u => u.id)))
        = uniqueOptions opts :=
    filter_key_mem_of_sublist (fun o => o.id) hsub hids
  have hpart := length_filter_add_length_filter_not
    (fun o => decide (o.id ∈ (uniqueOptions opts).map (fun u => u.id))) opts
  rw [huniq] at hpart
  omega

theorem uniqueOptions_keys_nodup (opts : List OptRow) :
    ((uniqueOptions opts).map optKey).Nodup := by
  rw [uniqueOptions, jsUniqueBy_eq_dedupByAux]
  exact dedupByAux_keys_nodup _ _ _

theorem uniqueOptions_of_keys_nodup (opts : List OptRow)
    (h : (opts.map optKey).Nodup) : uniqueOptions opts = opts := by
  rw [uniqueOptions, jsUniqueBy_eq_dedupByAux]
  exact dedupByAux_eq_self _ _ _ h (by simp)

theorem duplicateIds_of_unique (opts : List OptRow)
    (h : (opts.map optKey).Nodup) : duplicateIds opts = [] := by
  unfold duplicateIds
  rw [uniqueOptions_of_keys_nodup opts h]
  have hf : opts.filter (fun o => !(opts.any (fun u => u.id == o.id))) = [] := by
    apply List.filter_eq_nil_iff.mpr
    intro o ho
    have : opts.any (fun u => u.id == o.id) = true :=
      List.any_eq_true.mpr ⟨o, ho, by simp⟩
    simp [this]
  rw [hf]
  rfl

/-- **C6**: `removeDuplicateOptions` is idempotent: over a poll's option
rows (with distinct, non-falsy ids, as the storage guarantees), one run
deletes exactly the later occurrences of each case-insensitive trimmed
text — the survivors are the first occurrences, computed by the
first-occurrence recursion — and returns their count; the surviving set's
size equals the number of distinct normalized texts of the original list;
and a second consecutive run removes nothing and returns 0. -/
theorem C6_removeDuplicateOptions_idempotent (opts : List OptRow)
    (hids : (opts.map (fun o => o.id)).Nodup) (hne : ∀ o ∈ opts, o.id ≠ 0) :
    (removeDuplicateOptions opts).remaining = dedupByAux optKey [] opts ∧
    (removeDuplicateOptions opts).removed
      = opts.length - (removeDuplicateOptions opts).remaining.length ∧
    (removeDuplicateOptions opts).remaining.length = (opts.map optKey).toFinset.card ∧
    (removeDuplicateOptions (removeDuplicateOptions opts).remaining).removed = 0 ∧
    (removeDuplicateOptions (removeDuplicateOptions opts).remaining).remaining
      = (removeDuplicateOptions opts).remaining := by
  have hrem := remaining_eq_uniqueOptions opts hids hne
  have hkeys : ((uniqueOptions opts).map optKey).Nodup := uniqueOptions_keys_nodup opts
  refine ⟨?_, removed_count opts hids hne, ?_, ?_, ?_⟩
  · rw [hrem, uniqueOptions, jsUniqueBy_eq_dedupByAux]
  · rw [hrem, uniqueOptions, jsUniqueBy_eq_dedupByAux, dedupByAux_length]
    simp
  · rw [hrem, removeDuplicateOptions_removed,
      duplicateIds_of_unique (uniqueOptions opts) hkeys]
    rfl
  · rw [hrem, removeDuplicateOptions_remaining,
      duplicateIds_of_unique (uniqueOptions opts) hkeys]
    apply List.filter_eq_self.mpr
    intro o _
    simp

/-- Witness for C6 at a concrete option list with one duplicate pair. -/
theorem C6_witness :
    ((([⟨1, 10, "Apple"⟩, ⟨2, 10, " apple "⟩, ⟨3, 10, "Banana"⟩] :
        List OptRow).map (fun o => o.id)).Nodup ∧
      (∀ o ∈ ([⟨1, 10, "Apple"⟩, ⟨2, 10, " apple "⟩, ⟨3, 10, "Banana"⟩] :
        List OptRow), o.id ≠ 0)) ∧
    ((removeDuplicateOptions [⟨1, 10, "Apple"⟩, ⟨2, 10, " apple "⟩, ⟨3, 10, "Banana"⟩]).remaining
        = dedupByAux optKey [] [⟨1, 10, "Apple"⟩, ⟨2, 10, " apple "⟩, ⟨3, 10, "Banana"⟩] ∧
      (removeDuplicateOptions [⟨1, 10, "Apple"⟩, ⟨2, 10, " apple "⟩, ⟨3, 10, "Banana"⟩]).removed
        = ([⟨1, 10, "Apple"⟩, ⟨2, 10, " apple "⟩, ⟨3, 10, "Banana"⟩] : List OptRow).length
          - (removeDuplicateOptions
              [⟨1, 10, "Apple"⟩, ⟨2, 10, " apple "⟩, ⟨3, 10, "Banana"⟩]).remaining.length ∧
      (removeDuplicateOptions
          [⟨1, 10, "Apple"⟩, ⟨2, 10, " apple "⟩, ⟨3, 10, "Banana"⟩]).remaining.length
        = (([⟨1, 10, "Apple"⟩, ⟨2, 10, " apple "⟩, ⟨3, 10, "Banana"⟩] :
            List OptRow).map optKey).toFinset.card ∧
      (removeDuplicateOptions (removeDuplicateOptions
          [⟨1, 10, "Apple"⟩, ⟨2, 10, " apple "⟩, ⟨3, 10, "Banana"⟩]).remaining).removed = 0 ∧
      (removeDuplicateOptions (removeDuplicateOptions
          [⟨1, 10, "Apple"⟩, ⟨2, 10, " apple "⟩, ⟨3, 10, "Banana"⟩]).remaining).remaining
        = (removeDuplicateOptions
            [⟨1, 10, "Apple"⟩, ⟨2, 10, " apple "⟩, ⟨3, 10, "Banana"⟩]).remaining) :=
  ⟨⟨by decide, by decide⟩,
    C6_removeDuplicateOptions_idempotent
      [⟨1, 10, "Apple"⟩, ⟨2, 10, " apple "⟩, ⟨3, 10, "Banana"⟩] (by decide) (by decide)⟩

/-! ## Database state and response envelopes -/

/-- A `polls` table row. -/
structure PollRow where
  id : Id
  title : String
  description : Option String
  createdBy : Id
deriving DecidableEq

/-- A `votes` table row. -/
structure VoteRow where
  id : Id
  pollId : Id
  optionId : Id
  userId : Id
deriving DecidableEq

/-- The persisted state: the three tables, plus the freshness counter from
which storage-generated row ids are drawn. -/
structure DB where
  polls : List PollRow
  options : List OptRow
  votes : List VoteRow
  nextId : Id
deriving DecidableEq

/-- Storage invariant: every row id (and every foreign poll id) is below
the freshness counter, and primary keys are distinct. -/
def DB.wf (db : DB) : Prop :=
  (∀ p ∈ db.polls, p.id < db.nextId) ∧
  (∀ o ∈ db.options, o.id < db.nextId ∧ o.pollId < db.nextId) ∧
  (∀ v ∈ db.votes, v.id < db.nextId ∧ v.pollId < db.nextId) ∧
  (db.polls.map (fun p => p.id)).Nodup ∧
  (db.options.map (fun o => o.id)).Nodup

instance (db : DB) : Decidable db.wf := by
  unfold DB.wf
  infer_instance

/-- The `PollActionResult` envelope of `lib/types/poll.ts`
(`success?: boolean; message: string; pollId?: string; errors?:
Record<string, string[]>`). -/
structure PollActionResult where
  success : Option Bool
  message : String
  pollId : Option Id
  errors : Option (List (String × List String))
deriving DecidableEq

/-- Outcome of a server action: a returned envelope, the `redirect(...)`
control-flow exception, or an uncaught exception. -/
inductive ActionOutcome
  | envelope (r : PollActionResult)
  | redirect (path : String)
  | thrown
deriving DecidableEq

/-- `createSuccessResult` of `lib/utils/errors.ts`. -/
def createSuccessResult (message : String) (pollId : Option Id) : PollActionResult :=
  { success := some true, message := message, pollId := pollId, errors := none }

/-- `createErrorResult` (the `type` is logged, not returned). -/
def createErrorResult (message : String)
    (errors : Option (List (String × List String))) : PollActionResult :=
  { success := some false, message := message, pollId := none, errors := errors }

/-- `createValidationError`. -/
def createValidationError (errors : List (String × List String)) : PollActionResult :=
  createErrorResult "Validation failed. Please check your input and try again." (some errors)

/-- `createPermissionError` with its default message. -/
def createPermissionError : PollActionResult :=
  createErrorResult "You don't have permission to perform this action." none

/-- `createDatabaseError`. -/
def createDatabaseError (operation : String) : PollActionResult :=
  createErrorResult ("Database error: Failed to " ++ operation ++ ".") none

/-- `resource.charAt(0).toUpperCase() + resource.slice(1)`. -/
def capFirst (s : String) : String :=
  match s.data with
  | [] => s
  | c :: cs => String.mk (c.toUpper :: cs)

/-- `createNotFoundError`. -/
def createNotFoundError (resource : String) : PollActionResult :=
  createErrorResult (capFirst resource ++ " not found.") none

/-- `handleUnknownError` (the `withErrorHandling` catch-all). -/
def handleUnknownError (errMsg : String) (operation : String) : PollActionResult :=
  createErrorResult ("Failed to " ++ operation ++ ". " ++ errMsg) none

/-! ## Data access (`PollDatabase`)

Each storage call can fail; an explicit Boolean parameter resolves the
outcome of each call, and a failing call leaves the state unchanged and
produces the thrown error. -/

/-- `getPollById` / the `select("created_by").eq("id", pollId).single()`
lookup: the poll row, or `null` when the id does not resolve. -/
def getPollById (db : DB) (pollId : Id) : Option PollRow :=
  db.polls.find? (fun p => p.id == pollId)

/-- `verifyPollOwnership`: load the poll's `created_by` and compare with
the caller (false when the poll does not resolve or on error). -/
def verifyPollOwnership (db : DB) (pollId userId : Id) : Bool :=
  match getPollById db pollId with
  | none => false
  | some p => p.createdBy == userId

/-- The option rows of one poll, in stored order (`getPollOptions`). -/
def pollOptionsOf (db : DB) (pollId : Id) : List OptRow :=
  db.options.filter (fun o => o.pollId == pollId)

/-- Rows created by one `poll_options` insert call: fresh consecutive ids
drawn from the freshness counter. -/
def freshOptionRows (pollId : Id) (start : Id) : List String → List OptRow
  | [] => []
  | t :: ts => ⟨start, pollId, t⟩ :: freshOptionRows pollId (start + 1) ts

/-- `PollDatabase.createPoll`: insert the poll row. -/
def dbCreatePoll (db : DB) (title : String) (description : Option String)
    (userId : Id) (ok : Bool) : DB × Except String PollRow :=
  if ok then
    let row : PollRow := ⟨db.nextId, title, description, userId⟩
    ({ db with polls := db.polls ++ [row], nextId := db.nextId + 1 }, .ok row)
  else (db, .error "Failed to create poll")

/-- `PollDatabase.createPollOptions`: batch-insert option rows for the
given texts. -/
def dbCreatePollOptions (db : DB) (pollId : Id) (texts : List String)
    (ok : Bool) : DB × Except String (List OptRow) :=
  if ok then
    let rows := freshOptionRows pollId db.nextId texts
    ({ db with options := db.options ++ rows, nextId := db.nextId + texts.length },
      .ok rows)
  else (db, .error "Failed to create poll options")

/-- `PollDatabase.updatePoll`: update title/description of the poll row. -/
def dbUpdatePollMeta (db : DB) (pollId : Id) (title : String)
    (description : Option String) (ok : Bool) : DB × Except String Unit :=
  if ok then
    ({ db with polls := db.polls.map (fun p =>
        if p.id == pollId then { p with title := title, description := description }
        else p) }, .ok ())
  else (db, .error "Failed to update poll")

/-- `PollDatabase.deletePollOptions`: delete every option row of the poll. -/
def dbDeletePollOptions (db : DB) (pollId : Id) (ok : Bool) : DB × Except String Unit :=
  if ok then
    ({ db with options := db.options.filter (fun o => !(o.pollId == pollId)) }, .ok ())
  else (db, .error "Failed to delete poll options")

/-- `PollDatabase.deletePoll`: delete the poll row; options and votes
cascade through the storage-level foreign keys. -/
def dbDeletePoll (db : DB) (pollId : Id) (ok : Bool) : DB × Except String Unit :=
  if ok then
    ({ db with
        polls := db.polls.filter (fun p => !(p.id == pollId))
        options := db.options.filter (fun o => !(o.pollId == pollId))
        votes := db.votes.filter (fun v => !(v.pollId == pollId)) }, .ok ())
  else (db, .error "Failed to delete poll")

/-- `PollDatabase.createPollWithOptions`: insert the poll, then its
options; if the option insert fails, issue the compensating best-effort
`deletePoll(poll.id).catch(...)` and rethrow. -/
def createPollWithOptions (db : DB) (title : String) (description : Option String)
    (texts : List String) (userId : Id)
    (pollOk optsOk compensateOk : Bool) : DB × Except String PollRow :=
  match dbCreatePoll db title description userId pollOk with
  | (db1, .error e) => (db1, .error e)
  | (db1, .ok poll) =>
    match dbCreatePollOptions db1 poll.id texts optsOk with
    | (db2, .ok _) => (db2, .ok poll)
    | (db2, .error e) =>
      let cleanup := dbDeletePoll db2 poll.id compensateOk
      (cleanup.1, .error e)

/-- `PollDatabase.updatePollWithOptions`: metadata update, then delete all
existing options, then insert the replacement set. -/
def updatePollWithOptions (db : DB) (pollId : Id) (title : String)
    (description : Option String) (texts : List String)
    (updateOk deleteOk insertOk : Bool) : DB × Except String Unit :=
  match dbUpdatePollMeta db pollId title description updateOk with
  | (db1, .error e) => (db1, .error e)
  | (db1, .ok _) =>
    match dbDeletePollOptions db1 pollId deleteOk with
    | (db2, .error e) => (db2, .error e)
    | (db2, .ok _) =>
      match dbCreatePollOptions db2 pollId texts insertOk with
      | (db3, .error e) => (db3, .error e)
      | (db3, .ok _) => (db3, .ok ())

/-- Modelled from the spec: `castVote(pollId, optionId, voterId)` inserts a
Vote row and performs no prior-vote check.  The `PollDatabase.castVote`
method is called by the vote route but its definition is not among the
repository's source files. -/
def castVote (db : DB) (pollId optionId voterId : Id) (ok : Bool) :
    DB × Except String Unit :=
  if ok then
    ({ db with
        votes := db.votes ++ [⟨db.nextId, pollId, optionId, voterId⟩]
        nextId := db.nextId + 1 }, .ok ())
  else (db, .error "Failed to cast vote")

/-- `POST /api/polls/[id]/vote`, after `requireAuth` resolved the caller. -/
def voteRoutePost (db : DB) (user : Id) (pollId optionId : Id) (insertOk : Bool) :
    DB × PollActionResult :=
  match castVote db pollId optionId user insertOk with
  | (db1, .ok _) => (db1, createSuccessResult "Vote cast successfully!" none)
  | (db1, .error _) => (db1, createDatabaseError "cast vote")

/-- **C1**: for every authenticated cast-vote request whose storage insert
succeeds, the vote route appends exactly one Vote row recording the
request's poll id, option id and the caller's user id, touches no other
table, and returns the success envelope.  (`castVote` is modelled from the
spec; its caller, the vote route, is the source `POST` handler.) -/
theorem C1_cast_vote_inserts_one_row (db : DB) (user pollId optionId : Id) :
    (voteRoutePost db user pollId optionId true).1.votes
        = db.votes ++ [⟨db.nextId, pollId, optionId, user⟩] ∧
    (voteRoutePost db user pollId optionId true).1.polls = db.polls ∧
    (voteRoutePost db user pollId optionId true).1.options = db.options ∧
    (voteRoutePost db user pollId optionId true).2
        = createSuccessResult "Vote cast successfully!" none :=
  ⟨rfl, rfl, rfl, rfl⟩

/-! ## Validation -/

/-- Result shape of the validation helpers:
`{ success: true, data }` or `{ success: false, errors }`. -/
inductive VResult (δ : Type) where
  | ok (data : δ)
  | fail (errors : List (String × List String))
deriving DecidableEq

/-- zod `z.string().min(5).max(200).trim()` on `formData.get("title")`
(`null` fails with a required issue; the length checks run on the raw
value, the `.trim()` transform afterwards). -/
def zTitle (t : Option String) : Except (List String) String :=
  match t with
  | none => .error ["Required"]
  | some s =>
    let errs :=
      (if jsLength s < 5 then ["Title must be at least 5 characters long"] else []) ++
      (if jsLength s > 200 then ["Title must be at most 200 characters long"] else [])
    if errs.isEmpty then .ok (jsTrim s) else .error errs

/-- The `formData.get("description") || undefined` collapse: a missing or
empty raw value becomes `undefined`. -/
def descFallback (d : Option String) : Option String :=
  match d with
  | some "" => none
  | x => x

/-- zod optional description, max 1000, with the
`.transform(val => val?.trim() || undefined)`. -/
def zDescription (d : Option String) : Except (List String) (Option String) :=
  match d with
  | none => .ok none
  | some s =>
    if jsLength s > 1000 then .error ["Description must be at most 1000 characters long"]
    else
      let t := jsTrim s
      .ok (if t = "" then none else some t)

/-- zod option text: `z.string().min(1).max(100).trim()`. -/
def zOptionText (s : String) : Except (List String) String :=
  let errs :=
    (if jsLength s < 1 then ["Option cannot be empty"] else []) ++
    (if jsLength s > 100 then ["Option must be at most 100 characters long"] else [])
  if errs.isEmpty then .ok (jsTrim s) else .error errs

/-- Issues collected over the element parse results. -/
def collectErrs {β : Type} (rs : List (Except (List String) β)) : List String :=
  rs.foldr (fun r acc => match r with | .error es => es ++ acc | .ok _ => acc) []

/-- Values of the successful element parses. -/
def collectOks {β : Type} (rs : List (Except (List String) β)) : List β :=
  rs.filterMap (fun r => match r with | .ok b => some b | .error _ => none)

/-- The `options` branch of the refactored `pollFormSchema`: per-element
text checks, the array `min(2)` / `max(10)` checks, and — only once those
pass — the case-insensitive uniqueness refinement
(`new Set(texts.map(toLowerCase)).size === texts.length`). -/
def zCreateOptions (options : List String) : Except (List String) (List String) :=
  let results := options.map zOptionText
  let elemErrs := collectErrs results
  let lenErrs :=
    (if options.length < 2 then ["You must provide at least two options"] else []) ++
    (if options.length > 10 then ["You cannot have more than 10 options"] else [])
  if (elemErrs ++ lenErrs).isEmpty then
    let texts := collectOks results
    if (texts.map jsToLower).toFinset.card = texts.length then .ok texts
    else .error ["All options must be unique"]
  else .error (elemErrs ++ lenErrs)

/-- Parsed create payload (`CreatePollData`, carrying the option texts). -/
structure CreateData where
  title : String
  description : Option String
  options : List String
deriving DecidableEq

/-- `validateCreatePollData(formData)` over the raw `title`,
`description` (`formData.get(...) || undefined`) and the `options` field
values; returns the `{success, data?/errors?}` record and cannot throw. -/
def validateCreatePollData (titleRaw descRaw : Option String)
    (options : List String) : VResult CreateData :=
  match zTitle titleRaw, zDescription (descFallback descRaw), zCreateOptions options with
  | .ok t, .ok d, .ok os => .ok ⟨t, d, os⟩
  | rt, rd, ro =>
    .fail ((match rt with | .error es => [("title", es)] | _ => []) ++
           (match rd with | .error es => [("description", es)] | _ => []) ++
           (match ro with | .error es => [("options", es)] | _ => []))

/-- A member of the parsed `options` JSON array in an update submission:
`id?` (optional, carried through) and `text` (`none` models an absent or
non-string member, which fails the string check). -/
structure RawOption where
  id : Option String
  text : Option String
deriving DecidableEq

/-- Outcome of `JSON.parse(formData.get("options") as string || "[]")`:
a syntax error (the call throws), a JSON value that is not an array of
objects, or the array items. -/
inductive OptionsField where
  | malformed
  | nonArray
  | items (xs : List RawOption)
deriving DecidableEq

/-- A validated update option (`{ id?, text }`). -/
structure UpdateOption where
  id : Option String
  text : String
deriving DecidableEq

/-- Parsed update payload (`UpdatePollData`). -/
structure UpdateData where
  title : String
  description : Option String
  options : List UpdateOption
deriving DecidableEq

/-- One element of the refactored `updatePollSchema` options array. -/
def zUpdateOption (o : RawOption) : Except (List String) UpdateOption :=
  match o.text with
  | none => .error ["Required"]
  | some s =>
    match zOptionText s with
    | .ok t => .ok ⟨o.id, t⟩
    | .error es => .error es

/-- The `options` branch of the refactored `updatePollSchema`. -/
def zUpdateOptions (f : OptionsField) : Except (List String) (List UpdateOption) :=
  match f with
  | .malformed => .error []
  | .nonArray => .error ["Expected array, received other"]
  | .items xs =>
    let results := xs.map zUpdateOption
    let elemErrs := collectErrs results
    let lenErrs :=
      (if xs.length < 2 then ["You must provide at least two options"] else []) ++
      (if xs.length > 10 then ["You cannot have more than 10 options"] else [])
    if (elemErrs ++ lenErrs).isEmpty then
      let opts := collectOks results
      let texts := opts.map (fun o => o.text)
      if (texts.map jsToLower).toFinset.card = texts.length then .ok opts
      else .error ["All options must be unique"]
    else .error (elemErrs ++ lenErrs)

/-- `validateUpdatePollData(formData)`: `JSON.parse` of the raw options
field may throw (the `.error` case carries the runtime's `SyntaxError`
message); otherwise the zod result is returned as `{success,
data?/errors?}`. -/
def validateUpdatePollData (titleRaw descRaw : Option String)
    (optionsField : OptionsField) : Except String (VResult UpdateData) :=
  match optionsField with
  | .malformed => .error "SyntaxError: Unexpected token in JSON"
  | f =>
    .ok (match zTitle titleRaw, zDescription (descFallback descRaw), zUpdateOptions f with
      | .ok t, .ok d, .ok os => .ok ⟨t, d, os⟩
      | rt, rd, ro =>
        .fail ((match rt with | .error es => [("title", es)] | _ => []) ++
               (match rd with | .error es => [("description", es)] | _ => []) ++
               (match ro with | .error es => [("options", es)] | _ => [])))

/-- The legacy `pollFormSchema` of `lib/actions.ts`: title `min(5)` only,
options `min(1)` texts, at least two of them — no max bounds, no trimming
and no duplicate check. -/
def legacyValidateCreate (titleRaw descRaw : Option String)
    (options : List String) : VResult CreateData :=
  let descInput : Option String := descFallback descRaw
  let rt : Except (List String) String :=
    match titleRaw with
    | none => .error ["Required"]
    | some s =>
      if jsLength s < 5 then .error ["Title must be at least 5 characters long"]
      else .ok s
  let ro : Except (List String) (List String) :=
    let elemErrs :=
      options.foldr (fun s acc =>
        if jsLength s < 1 then "Option cannot be empty" :: acc else acc) []
    let lenErrs :=
      if options.length < 2 then ["You must provide at least two options"] else []
    if (elemErrs ++ lenErrs).isEmpty then .ok options else .error (elemErrs ++ lenErrs)
  match rt, ro with
  | .ok t, .ok os => .ok ⟨t, descInput, os⟩
  | rt, ro =>
    .fail ((match rt with | .error es => [("title", es)] | _ => []) ++
           (match ro with | .error es => [("options", es)] | _ => []))

/-- The legacy `updatePollSchema` of `lib/actions.ts` (optional option
ids, text `min(1)`, at least two options — no max/trim/duplicate checks). -/
def legacyValidateUpdate (titleRaw descRaw : Option String)
    (xs : List RawOption) : VResult UpdateData :=
  let descInput : Option String := descFallback descRaw
  let rt : Except (List String) String :=
    match titleRaw with
    | none => .error ["Required"]
    | some s =>
      if jsLength s < 5 then .error ["Title must be at least 5 characters long"]
      else .ok s
  let ro : Except (List String) (List UpdateOption) :=
    let results := xs.map (fun o =>
      match o.text with
      | none => (Except.error ["Required"] : Except (List String) UpdateOption)
      | some s =>
        if jsLength s < 1 then .error ["Option cannot be empty"] else .ok ⟨o.id, s⟩)
    let elemErrs := collectErrs results
    let lenErrs :=
      if xs.length < 2 then ["You must provide at least two options"] else []
    if (elemErrs ++ lenErrs).isEmpty then .ok (collectOks results)
    else .error (elemErrs ++ lenErrs)
  match rt, ro with
  | .ok t, .ok os => .ok ⟨t, descInput, os⟩
  | rt, ro =>
    .fail ((match rt with | .error es => [("title", es)] | _ => []) ++
           (match ro with | .error es => [("options", es)] | _ => []))

/-! ## Orchestration: server actions (`lib/actions.ts`) and API routes -/

/-- The legacy `createPoll` server action of `lib/actions.ts`. -/
def createPollAction (db : DB) (user : Option Id) (titleRaw descRaw : Option String)
    (options : List String) (pollOk optsOk compensateOk : Bool) : DB × ActionOutcome :=
  match user with
  | none => (db, .redirect "/login")
  | some uid =>
    match legacyValidateCreate titleRaw descRaw options with
    | .fail errs =>
      (db, .envelope ⟨none, "Missing Fields. Failed to Create Poll.", none, some errs⟩)
    | .ok data =>
      match dbCreatePoll db data.title data.description uid pollOk with
      | (db1, .error _) =>
        (db1, .envelope ⟨none, "Database Error: Failed to Create Poll.", none, none⟩)
      | (db1, .ok poll) =>
        match dbCreatePollOptions db1 poll.id data.options optsOk with
        | (db2, .ok _) =>
          (db2, .envelope ⟨some true, "Poll created successfully!", some poll.id, none⟩)
        | (db2, .error _) =>
          let cleanup := dbDeletePoll db2 poll.id compensateOk
          (cleanup.1,
            .envelope ⟨none, "Database Error: Failed to Create Poll Options.", none, none⟩)

/-- `POST /api/polls` (the refactored create route), once `requireAuth`
resolved the caller. -/
def createRoutePost (db : DB) (user : Id) (titleRaw descRaw : Option String)
    (options : List String) (pollOk optsOk compensateOk : Bool) : DB × PollActionResult :=
  match validateCreatePollData titleRaw descRaw options with
  | .fail errs => (db, createValidationError errs)
  | .ok data =>
    match createPollWithOptions db data.title data.description data.options user
        pollOk optsOk compensateOk with
    | (db1, .ok poll) => (db1, createSuccessResult "Poll created successfully!" (some poll.id))
    | (db1, .error _) => (db1, createDatabaseError "create poll")

/-- The legacy `deletePoll` server action of `lib/actions.ts`. -/
def deletePollAction (db : DB) (user : Option Id) (pollId : Id) (deleteOk : Bool) :
    DB × ActionOutcome :=
  match user with
  | none => (db, .redirect "/login")
  | some uid =>
    match getPollById db pollId with
    | none => (db, .envelope ⟨none, "Poll not found.", none, none⟩)
    | some poll =>
      if !(poll.createdBy == uid) then
        (db, .envelope ⟨none, "You don't have permission to delete this poll.", none, none⟩)
      else
        match dbDeletePoll db pollId deleteOk with
        | (db1, .error _) =>
          (db1, .envelope ⟨none, "Database Error: Failed to Delete Poll.", none, none⟩)
        | (db1, .ok _) =>
          (db1, .envelope ⟨some true, "Poll deleted successfully!", none, none⟩)

/-- `DELETE /api/polls/[id]`, once `requireAuth` resolved the caller. -/
def deleteRouteDelete (db : DB) (user : Id) (pollId : Id) (deleteOk : Bool) :
    DB × PollActionResult :=
  match getPollById db pollId with
  | none => (db, createNotFoundError "Poll")
  | some _ =>
    if verifyPollOwnership db pollId user then
      match dbDeletePoll db pollId deleteOk with
      | (db1, .ok _) => (db1, createSuccessResult "Poll deleted successfully!" none)
      | (db1, .error _) => (db1, createDatabaseError "delete poll")
    else (db, createPermissionError)

/-- The legacy `updatePoll` server action of `lib/actions.ts`: existence
and ownership first, then `JSON.parse` (an uncaught throw on malformed
input), the legacy schema, the non-empty filter, the metadata update, the
per-option delete loop whose individual failures are logged and ignored,
and the insert of the trimmed replacement texts. -/
def updatePollAction (db : DB) (user : Option Id) (pollId : Id)
    (titleRaw descRaw : Option String) (optionsField : OptionsField)
    (updateOk getOk : Bool) (deleteOk : Id → Bool) (insertOk : Bool) :
    DB × ActionOutcome :=
  match user with
  | none => (db, .redirect "/login")
  | some uid =>
    match getPollById db pollId with
    | none => (db, .envelope ⟨none, "Poll not found.", none, none⟩)
    | some poll =>
      if !(poll.createdBy == uid) then
        (db, .envelope ⟨none, "You don't have permission to edit this poll.", none, none⟩)
      else
        match optionsField with
        | .malformed => (db, .thrown)
        | .nonArray =>
          (db, .envelope ⟨none, "Missing Fields. Failed to Update Poll.", none,
            some [("options", ["Expected array, received other"])]⟩)
        | .items xs =>
          match legacyValidateUpdate titleRaw descRaw xs with
          | .fail errs =>
            (db, .envelope ⟨none, "Missing Fields. Failed to Update Poll.", none, some errs⟩)
          | .ok data =>
            let cleanOptions := data.options.filter
              (fun o => !(o.text == "") && !(jsTrim o.text == ""))
            if cleanOptions.length < 2 then
              (db, .envelope ⟨none, "You must provide at least two non-empty options.",
                none, none⟩)
            else
              match dbUpdatePollMeta db pollId data.title data.description updateOk with
              | (db1, .error _) =>
                (db1, .envelope ⟨none, "Database Error: Failed to Update Poll.", none, none⟩)
              | (db1, .ok _) =>
                if !getOk then
                  (db1, .envelope ⟨none,
                    "Database Error: Failed to get poll options for deletion.", none, none⟩)
                else
                  let delIds := (pollOptionsOf db1 pollId).map (fun o => o.id)
                  let remaining := db1.options.filter
                    (fun o => !(decide (o.id ∈ delIds) && deleteOk o.id))
                  let db2 := { db1 with options := remaining }
                  match dbCreatePollOptions db2 pollId
                      (cleanOptions.map (fun o => jsTrim o.text)) insertOk with
                  | (db3, .error _) =>
                    (db3, .envelope ⟨none, "Database Error: Failed to Update Poll Options.",
                      none, none⟩)
                  | (db3, .ok _) =>
                    (db3, .envelope ⟨some true, "Poll updated successfully!", none, none⟩)

/-- `PUT /api/polls/[id]`, once `requireAuth` resolved the caller:
validation (whose `JSON.parse` throw is caught by `withErrorHandling`),
then existence, then ownership, then the non-empty filter and the
composite `updatePollWithOptions`. -/
def updateRoutePut (db : DB) (user : Id) (pollId : Id)
    (titleRaw descRaw : Option String) (optionsField : OptionsField)
    (updateOk deleteOk insertOk : Bool) : DB × PollActionResult :=
  match validateUpdatePollData titleRaw descRaw optionsField with
  | .error e => (db, handleUnknownError e "update poll")
  | .ok (.fail errs) => (db, createValidationError errs)
  | .ok (.ok data) =>
    match getPollById db pollId with
    | none => (db, createNotFoundError "Poll")
    | some _ =>
      if verifyPollOwnership db pollId user then
        let cleanOptions := data.options.filter
          (fun o => !(o.text == "") && !(jsTrim o.text == ""))
        if cleanOptions.length < 2 then
          (db, createValidationError
            [("options", ["You must provide at least two non-empty options."])])
        else
          match updatePollWithOptions db pollId data.title data.description
              (cleanOptions.map (fun o => o.text)) updateOk deleteOk insertOk with
          | (db1, .ok _) => (db1, createSuccessResult "Poll updated successfully!" none)
          | (db1, .error _) => (db1, createDatabaseError "update poll")
      else (db, createPermissionError)

/-- `PollDatabase.removeDuplicateOptions` at the database level: load the
poll's options, delete the rows named by `duplicateIds` (when any), and
return the count. -/
def removeDuplicateOptionsDb (db : DB) (pollId : Id) (fetchOk deleteOk : Bool) :
    DB × Except String Nat :=
  if fetchOk then
    let opts := pollOptionsOf db pollId
    let dupIds := duplicateIds opts
    if 0 < dupIds.length then
      if deleteOk then
        ({ db with options := db.options.filter (fun o => decide (o.id ∉ dupIds)) },
          .ok dupIds.length)
      else (db, .error "Failed to remove duplicate options")
    else (db, .ok dupIds.length)
  else (db, .error "Failed to get poll options")

/-- `POST /api/polls/[id]/cleanup`, once `requireAuth` resolved the
caller: existence, then `requirePollOwnership`, then the duplicate
removal. -/
def cleanupRoutePost (db : DB) (user : Id) (pollId : Id) (fetchOk deleteOk : Bool) :
    DB × PollActionResult :=
  match getPollById db pollId with
  | none => (db, createNotFoundError "Poll")
  | some _ =>
    if verifyPollOwnership db pollId user then
      match removeDuplicateOptionsDb db pollId fetchOk deleteOk with
      | (db1, .ok n) =>
        (db1, createSuccessResult
          ("Cleaned up " ++ toString n ++ " duplicate option"
            ++ (if n != 1 then "s" else "")) none)
      | (db1, .error _) => (db1, createDatabaseError "cleanup poll duplicates")
    else (db, createPermissionError)

/-- The legacy `cleanupPollDuplicates` server action of `lib/actions.ts`:
after authentication it loads the options and deletes the later-occurrence
duplicates — with no existence or ownership check. -/
def cleanupAction (db : DB) (user : Option Id) (pollId : Id) (fetchOk deleteOk : Bool) :
    DB × ActionOutcome :=
  match user with
  | none => (db, .redirect "/login")
  | some _ =>
    if fetchOk then
      let opts := pollOptionsOf db pollId
      let uniq := uniqueOptions opts
      let dupIds := (opts.filter (fun o => !(uniq.any (fun u => u.id == o.id)))).map
        (fun o => o.id)
      if 0 < dupIds.length then
        if deleteOk then
          ({ db with options := db.options.filter (fun o => decide (o.id ∉ dupIds)) },
            .envelope ⟨some true,
              "Cleaned up " ++ toString dupIds.length ++ " duplicate options", none, none⟩)
        else (db, .envelope ⟨none, "Failed to delete duplicates", none, none⟩)
      else
        (db, .envelope ⟨some true,
          "Cleaned up " ++ toString dupIds.length ++ " duplicate options", none, none⟩)
    else (db, .envelope ⟨none, "Failed to fetch options", none, none⟩)

/-! ## Claims about creation and update orchestration -/

theorem filter_key_ne (l : List α) (f : α → Id) (n : Id) (h : ∀ x ∈ l, f x ≠ n) :
    l.filter (fun x => !(f x == n)) = l :=
  List.filter_eq_self.mpr (by intro x hx; simp [h x hx])

theorem mem_freshOptionRows :
    ∀ {ts : List String} {s : Id} {pid : Id} {o : OptRow},
      o ∈ freshOptionRows pid s ts → o.pollId = pid ∧ s ≤ o.id := by
  intro ts
  induction ts with
  | nil => intro s pid o ho; simp [freshOptionRows] at ho
  | cons t ts ih =>
    intro s pid o ho
    rw [freshOptionRows] at ho
    rcases List.mem_cons.mp ho with h | h
    · subst h; exact ⟨rfl, Nat.le_refl _⟩
    · rcases ih h with ⟨h1, h2⟩
      exact ⟨h1, Nat.le_of_succ_le h2⟩

theorem freshOptionRows_map_text (pid : Id) :
    ∀ (ts : List String) (s : Id), (freshOptionRows pid s ts).map (fun o => o.text) = ts := by
  intro ts
  induction ts with
  | nil => intro s; rfl
  | cons t ts ih => intro s; rw [freshOptionRows, List.map_cons, ih]

/-- **C8** (amended only in formalization granularity — the claim holds):
when the poll insert succeeds, the option insert fails and the
compensating delete succeeds, both `createPollWithOptions` and the legacy
`createPoll` server action return their error result and leave the
`polls`, `poll_options` and `votes` tables exactly as before. -/
theorem C8_create_compensating_delete (db : DB) (hwf : db.wf) (title : String)
    (desc : Option String) (texts : List String) (uid : Id) :
    (∃ e, (createPollWithOptions db title desc texts uid true false true).2
        = Except.error e) ∧
    (createPollWithOptions db title desc texts uid true false true).1.polls = db.polls ∧
    (createPollWithOptions db title desc texts uid true false true).1.options
        = db.options ∧
    (createPollWithOptions db title desc texts uid true false true).1.votes = db.votes ∧
    (∀ traw draw opts data, legacyValidateCreate traw draw opts = .ok data →
      (createPollAction db (some uid) traw draw opts true false true).2
          = .envelope ⟨none, "Database Error: Failed to Create Poll Options.", none, none⟩ ∧
      (createPollAction db (some uid) traw draw opts true false true).1.polls
          = db.polls) := by
  have hpolls : (db.polls ++ [(⟨db.nextId, title, desc, uid⟩ : PollRow)]).filter
      (fun p => !(p.id == db.nextId)) = db.polls := by
    rw [List.filter_append, filter_key_ne db.polls (fun p => p.id) db.nextId
      (fun p hp => Nat.ne_of_lt (hwf.1 p hp))]
    simp
  have hopts : db.options.filter (fun o => !(o.pollId == db.nextId)) = db.options :=
    filter_key_ne db.options (fun o => o.pollId) db.nextId
      (fun o ho => Nat.ne_of_lt (hwf.2.1 o ho).2)
  have hvotes : db.votes.filter (fun v => !(v.pollId == db.nextId)) = db.votes :=
    filter_key_ne db.votes (fun v => v.pollId) db.nextId
      (fun v hv => Nat.ne_of_lt (hwf.2.2.1 v hv).2)
  refine ⟨⟨"Failed to create poll options", rfl⟩, ?_, ?_, ?_, ?_⟩
  · show (db.polls ++ [(⟨db.nextId, title, desc, uid⟩ : PollRow)]).filter
      (fun p => !(p.id == db.nextId)) = db.polls
    exact hpolls
  · exact hopts
  · exact hvotes
  · intro traw draw opts data hv
    unfold createPollAction
    rw [hv]
    constructor
    · rfl
    · show (db.polls ++ [(⟨db.nextId, data.title, data.description, uid⟩ : PollRow)]).filter
        (fun p => !(p.id == db.nextId)) = db.polls
      rw [List.filter_append, filter_key_ne db.polls (fun p => p.id) db.nextId
        (fun p hp => Nat.ne_of_lt (hwf.1 p hp))]
      simp

/-- Witness for C8 on a concrete well-formed database. -/
theorem C8_witness :
    (DB.wf ⟨[⟨0, "Existing", none, 5⟩], [], [], 1⟩) ∧
    (createPollWithOptions ⟨[⟨0, "Existing", none, 5⟩], [], [], 1⟩
        "A fresh poll" none ["A", "B"] 5 true false true).1.polls
      = [⟨0, "Existing", none, 5⟩] :=
  ⟨by decide,
    (C8_create_compensating_delete ⟨[⟨0, "Existing", none, 5⟩], [], [], 1⟩ (by decide)
      "A fresh poll" none ["A", "B"] 5).2.1⟩

theorem filter_against_filter_key (l : List α) (f : α → Id) (n : Id) :
    (l.filter (fun x => !(f x == n))).filter (fun x => f x == n) = [] := by
  rw [List.filter_filter]
  apply List.filter_eq_nil_iff.mpr
  intro x _
  cases h : (f x == n) <;> simp [h]

/-- **C10**: the update write path is not atomic.  For an authenticated
owner's valid update in which the metadata update and the option delete
succeed but the replacement insert fails, the PUT route returns the
database-error envelope while the poll's title and description are already
updated and its option set is empty — the deleted options are not
restored. -/
theorem C10_update_not_atomic (db : DB) (user pollId : Id)
    (titleRaw descRaw : Option String) (f : OptionsField) (data : UpdateData)
    (hv : validateUpdatePollData titleRaw descRaw f = .ok (.ok data))
    (hown : verifyPollOwnership db pollId user = true)
    (hclean : 2 ≤ (data.options.filter
      (fun o => !(o.text == "") && !(jsTrim o.text == ""))).length) :
    (updateRoutePut db user pollId titleRaw descRaw f true true false).2
        = createDatabaseError "update poll" ∧
    (updateRoutePut db user pollId titleRaw descRaw f true true false).1.polls
        = db.polls.map (fun p =>
            if p.id == pollId then
              { p with title := data.title, description := data.description }
            else p) ∧
    pollOptionsOf (updateRoutePut db user pollId titleRaw descRaw f true true false).1
        pollId = [] := by
  have hex : ∃ p, getPollById db pollId = some p := by
    unfold verifyPollOwnership at hown
    rcases h : getPollById db pollId with _ | p
    · rw [h] at hown; exact absurd hown (by simp)
    · exact ⟨p, rfl⟩
  rcases hex with ⟨poll, hpoll⟩
  unfold updateRoutePut
  rw [hv, hpoll]
  dsimp only
  rw [if_pos hown, if_neg (show ¬ ((data.options.filter
    (fun o : UpdateOption => !(o.text == "") && !(jsTrim o.text == ""))).length < 2)
    by omega)]
  refine ⟨rfl, rfl, ?_⟩
  show ((db.options.filter (fun o : OptRow => !(o.pollId == pollId))).filter
    (fun o : OptRow => o.pollId == pollId)) = []
  exact filter_against_filter_key _ (fun o : OptRow => o.pollId) pollId

/-- Witness for C10: a concrete owner update whose option insert fails. -/
theorem C10_witness :
    pollOptionsOf (updateRoutePut ⟨[⟨1, "Old title", none, 7⟩], [⟨2, 1, "X"⟩, ⟨3, 1, "Y"⟩], [], 10⟩
        7 1 (some "Hello world") none
        (.items [⟨none, some "A"⟩, ⟨none, some "B"⟩]) true true false).1 1 = [] :=
  (C10_update_not_atomic ⟨[⟨1, "Old title", none, 7⟩], [⟨2, 1, "X"⟩, ⟨3, 1, "Y"⟩], [], 10⟩
      7 1 (some "Hello world") none (.items [⟨none, some "A"⟩, ⟨none, some "B"⟩])
      ⟨"Hello world", none, [⟨none, "A"⟩, ⟨none, "B"⟩]⟩
      (by rfl) (by rfl) (by decide)).2.2

/-- **C7** (amended): for the composite `updatePollWithOptions` — the
write path used by the PUT route — every successful update replaces the
poll's option set entirely: afterwards the poll's stored options are
exactly the fresh rows carrying the submitted texts, every pre-update
option row of the poll is gone, and no pre-update option id survives among
the poll's options.  The legacy `updatePoll` server action does not
guarantee this, because its per-option delete failures are ignored. -/
theorem C7_update_replaces_option_set (db : DB) (hwf : db.wf) (pollId : Id)
    (title : String) (desc : Option String) (texts : List String)
    (uOk dOk iOk : Bool)
    (h : (updatePollWithOptions db pollId title desc texts uOk dOk iOk).2
      = Except.ok ()) :
    pollOptionsOf (updatePollWithOptions db pollId title desc texts uOk dOk iOk).1 pollId
        = freshOptionRows pollId db.nextId texts ∧
    (pollOptionsOf (updatePollWithOptions db pollId title desc texts uOk dOk iOk).1
        pollId).map (fun o => o.text) = texts ∧
    (∀ o ∈ db.options, o.pollId = pollId →
      o ∉ (updatePollWithOptions db pollId title desc texts uOk dOk iOk).1.options ∧
      o.id ∉ (pollOptionsOf (updatePollWithOptions db pollId title desc texts uOk dOk iOk).1
        pollId).map (fun x => x.id)) := by
  cases uOk with
  | false => exact Except.noConfusion h
  | true =>
  cases dOk with
  | false => exact Except.noConfusion h
  | true =>
  cases iOk with
  | false => exact Except.noConfusion h
  | true =>
  have hc1 : pollOptionsOf (updatePollWithOptions db pollId title desc texts
      true true true).1 pollId = freshOptionRows pollId db.nextId texts := by
    show ((db.options.filter (fun o : OptRow => !(o.pollId == pollId))
        ++ freshOptionRows pollId db.nextId texts).filter
          (fun o : OptRow => o.pollId == pollId))
      = freshOptionRows pollId db.nextId texts
    rw [List.filter_append,
      filter_against_filter_key db.options (fun o : OptRow => o.pollId) pollId,
      List.filter_eq_self.mpr (fun o ho => by
        simp [(mem_freshOptionRows ho).1])]
    simp
  refine ⟨hc1, by rw [hc1, freshOptionRows_map_text], ?_⟩
  intro o ho hpid
  constructor
  · intro hmem
    have hmem2 : o ∈ db.options.filter (fun o : OptRow => !(o.pollId == pollId))
        ++ freshOptionRows pollId db.nextId texts := hmem
    rcases List.mem_append.mp hmem2 with hl | hr
    · have := (List.mem_filter.mp hl).2
      simp [hpid] at this
    · have h1 := (mem_freshOptionRows hr).2
      have h2 := (hwf.2.1 o ho).1
      exact absurd (Nat.lt_of_lt_of_le h2 h1) (Nat.lt_irrefl _)
  · rw [hc1]
    intro hmem
    rcases List.mem_map.mp hmem with ⟨x, hx, hxid⟩
    have h1 := (mem_freshOptionRows hx).2
    have h2 := (hwf.2.1 o ho).1
    exact absurd (Nat.lt_of_lt_of_le h2 (hxid ▸ h1)) (Nat.lt_irrefl _)

/-- Counterexample for C7: in the legacy `updatePoll` server action the
per-option delete failures are logged and ignored, so an update can report
success while a pre-update option row of the poll survives. -/
theorem C7_counterexample :
    (updatePollAction ⟨[⟨1, "Old title", none, 7⟩], [⟨2, 1, "Old"⟩, ⟨3, 1, "Zed"⟩], [], 10⟩
        (some 7) 1 (some "Hello world") none
        (.items [⟨none, some "A"⟩, ⟨none, some "B"⟩]) true true (fun _ => false) true).2
      = .envelope ⟨some true, "Poll updated successfully!", none, none⟩ ∧
    (⟨2, 1, "Old"⟩ : OptRow) ∈
      (updatePollAction ⟨[⟨1, "Old title", none, 7⟩], [⟨2, 1, "Old"⟩, ⟨3, 1, "Zed"⟩], [], 10⟩
        (some 7) 1 (some "Hello world") none
        (.items [⟨none, some "A"⟩, ⟨none, some "B"⟩]) true true (fun _ => false) true).1.options
    := by decide

/-- Witness for C7 on a concrete successful composite update. -/
theorem C7_witness :
    (DB.wf ⟨[⟨1, "Old title", none, 7⟩], [⟨2, 1, "Old"⟩], [], 10⟩) ∧
    (pollOptionsOf (updatePollWithOptions ⟨[⟨1, "Old title", none, 7⟩], [⟨2, 1, "Old"⟩], [], 10⟩
        1 "Hello world" none ["A", "B"] true true true).1 1).map (fun o => o.text)
      = ["A", "B"] :=
  ⟨by decide,
    (C7_update_replaces_option_set ⟨[⟨1, "Old title", none, 7⟩], [⟨2, 1, "Old"⟩], [], 10⟩
      (by decide) 1 "Hello world" none ["A", "B"] true true true (by rfl)).2.1⟩

/-! ## Claims about cleanup, existence and ownership ordering -/

/-- **C3** (amended): the cleanup API route enforces ownership — an
authenticated non-owner's request against an existing poll mutates
nothing and yields the permission error, while the owner's request hands
the state to the duplicate removal.  (The legacy `cleanupPollDuplicates`
server action performs the deletion for any authenticated caller — see the
counterexample.) -/
theorem C3_cleanup_route_enforces_ownership (db : DB) (user pollId : Id)
    (fOk dOk : Bool) (poll : PollRow) (hpoll : getPollById db pollId = some poll) :
    (poll.createdBy ≠ user →
      cleanupRoutePost db user pollId fOk dOk = (db, createPermissionError)) ∧
    (poll.createdBy = user →
      (cleanupRoutePost db user pollId fOk dOk).1
        = (removeDuplicateOptionsDb db pollId fOk dOk).1) := by
  have hverify : verifyPollOwnership db pollId user = (poll.createdBy == user) := by
    unfold verifyPollOwnership
    rw [hpoll]
  constructor
  · intro hne
    unfold cleanupRoutePost
    rw [hpoll]
    dsimp only
    rw [hverify, if_neg (by simp [hne])]
  · intro heq
    unfold cleanupRoutePost
    rw [hpoll]
    dsimp only
    rw [hverify, if_pos (by simp [heq])]
    rcases hrun : removeDuplicateOptionsDb db pollId fOk dOk with ⟨db1, r⟩
    cases r <;> rfl

/-- Counterexample for C3: the legacy `cleanupPollDuplicates` server
action deletes an existing poll's duplicate options for an authenticated
caller who is not the owner (poll owned by user 7, caller user 8) and
reports success rather than a permission error. -/
theorem C3_counterexample :
    (cleanupAction ⟨[⟨1, "Poll title", none, 7⟩], [⟨2, 1, "A"⟩, ⟨3, 1, "a"⟩], [], 10⟩
        (some 8) 1 true true).2
      = .envelope ⟨some true, "Cleaned up 1 duplicate options", none, none⟩ ∧
    (cleanupAction ⟨[⟨1, "Poll title", none, 7⟩], [⟨2, 1, "A"⟩, ⟨3, 1, "a"⟩], [], 10⟩
        (some 8) 1 true true).1.options = [⟨2, 1, "A"⟩] := by decide

/-- Witness for C3 on a concrete database: the route rejects the
non-owner without mutation. -/
theorem C3_witness :
    cleanupRoutePost ⟨[⟨1, "Poll title", none, 7⟩], [⟨2, 1, "A"⟩, ⟨3, 1, "a"⟩], [], 10⟩
        8 1 true true
      = (⟨[⟨1, "Poll title", none, 7⟩], [⟨2, 1, "A"⟩, ⟨3, 1, "a"⟩], [], 10⟩,
          createPermissionError) :=
  (C3_cleanup_route_enforces_ownership
      ⟨[⟨1, "Poll title", none, 7⟩], [⟨2, 1, "A"⟩, ⟨3, 1, "a"⟩], [], 10⟩ 8 1 true true
      ⟨1, "Poll title", none, 7⟩ (by rfl)).1 (by decide)

theorem take_one_unknown_message (t : String) :
    ("Failed to " ++ "update poll" ++ ". " ++ t).data.take 1 = ['F'] := by
  rw [String.data_append]
  rw [List.take_append_of_le_length (by decide)]
  decide

theorem handleUnknown_ne_permission (e : String) :
    handleUnknownError e "update poll" ≠ createPermissionError := by
  intro h
  have hm : ("Failed to " ++ "update poll" ++ ". " ++ e)
      = "You don't have permission to perform this action." :=
    congrArg PollActionResult.message h
  have hd : ("Failed to " ++ "update poll" ++ ". " ++ e).data.take 1
      = ("You don't have permission to perform this action." : String).data.take 1 :=
    congrArg (fun s => s.data.take 1) hm
  rw [take_one_unknown_message e] at hd
  exact absurd hd (by decide)

theorem validationError_ne_permission (errs : List (String × List String)) :
    createValidationError errs ≠ createPermissionError := by
  intro h
  have hm : ("Validation failed. Please check your input and try again." : String)
      = "You don't have permission to perform this action." :=
    congrArg PollActionResult.message h
  exact absurd hm (by decide)

theorem notFound_ne_permission :
    createNotFoundError "Poll" ≠ createPermissionError := by
  intro h
  have hm := congrArg PollActionResult.message h
  exact absurd hm (by decide)

/-- **C5**: for update and delete — in the legacy server actions and in
the API route — existence of the target poll is decided before ownership:
a request naming a non-existent poll yields the not-found result (and for
the PUT route never the permission error, whatever the payload), while an
authenticated non-owner's request against an existing poll yields the
permission result.  (For the PUT route, whose validation runs before the
existence check, the not-found clause is stated for payloads that pass
validation.) -/
theorem C5_not_found_before_ownership (db : DB) (uid pollId : Id) :
    (getPollById db pollId = none →
      (∀ dOk, deletePollAction db (some uid) pollId dOk
          = (db, .envelope ⟨none, "Poll not found.", none, none⟩)) ∧
      (∀ traw draw f uOk gOk delOk iOk,
        updatePollAction db (some uid) pollId traw draw f uOk gOk delOk iOk
          = (db, .envelope ⟨none, "Poll not found.", none, none⟩)) ∧
      (∀ dOk, deleteRouteDelete db uid pollId dOk = (db, createNotFoundError "Poll")) ∧
      (∀ traw draw f data uOk dOk iOk,
        validateUpdatePollData traw draw f = .ok (.ok data) →
        updateRoutePut db uid pollId traw draw f uOk dOk iOk
          = (db, createNotFoundError "Poll")) ∧
      (∀ traw draw f uOk dOk iOk,
        (updateRoutePut db uid pollId traw draw f uOk dOk iOk).2
          ≠ createPermissionError)) ∧
    (∀ poll, getPollById db pollId = some poll → poll.createdBy ≠ uid →
      (∀ dOk, deletePollAction db (some uid) pollId dOk
          = (db, .envelope ⟨none, "You don't have permission to delete this poll.",
              none, none⟩)) ∧
      (∀ traw draw f uOk gOk delOk iOk,
        updatePollAction db (some uid) pollId traw draw f uOk gOk delOk iOk
          = (db, .envelope ⟨none, "You don't have permission to edit this poll.",
              none, none⟩)) ∧
      (∀ dOk, deleteRouteDelete db uid pollId dOk = (db, createPermissionError)) ∧
      (∀ traw draw f data uOk dOk iOk,
        validateUpdatePollData traw draw f = .ok (.ok data) →
        updateRoutePut db uid pollId traw draw f uOk dOk iOk
          = (db, createPermissionError))) := by
  constructor
  · intro hnone
    refine ⟨?_, ?_, ?_, ?_, ?_⟩
    · intro dOk; unfold deletePollAction; rw [hnone]
    · intro traw draw f uOk gOk delOk iOk; unfold updatePollAction; rw [hnone]
    · intro dOk; unfold deleteRouteDelete; rw [hnone]
    · intro traw draw f data uOk dOk iOk hv
      unfold updateRoutePut; rw [hv, hnone]
    · intro traw draw f uOk dOk iOk
      rcases hv : validateUpdatePollData traw draw f with e | v
      · unfold updateRoutePut; rw [hv]
        exact handleUnknown_ne_permission e
      · cases v with
        | fail errs =>
          unfold updateRoutePut; rw [hv]
          exact validationError_ne_permission errs
        | ok data =>
          unfold updateRoutePut; rw [hv]
          dsimp only
          rw [hnone]
          exact notFound_ne_permission
  · intro poll hpoll hne
    have hverify : verifyPollOwnership db pollId uid = (poll.createdBy == uid) := by
      unfold verifyPollOwnership
      rw [hpoll]
    refine ⟨?_, ?_, ?_, ?_⟩
    · intro dOk; unfold deletePollAction; rw [hpoll]
      dsimp only
      rw [if_pos (show (!(poll.createdBy == uid)) = true by simp [hne])]
    · intro traw draw f uOk gOk delOk iOk; unfold updatePollAction; rw [hpoll]
      dsimp only
      rw [if_pos (show (!(poll.createdBy == uid)) = true by simp [hne])]
    · intro dOk; unfold deleteRouteDelete; rw [hpoll]
      dsimp only
      rw [hverify, if_neg (by simp [hne])]
    · intro traw draw f data uOk dOk iOk hv
      unfold updateRoutePut; rw [hv, hpoll]
      dsimp only
      rw [hverify, if_neg (by simp [hne])]

/-- Witness for C5 at two concrete databases: a missing poll yields
not-found; an existing poll with a different owner yields the permission
error. -/
theorem C5_witness :
    deletePollAction ⟨[], [], [], 0⟩ (some 1) 5 true
        = (⟨[], [], [], 0⟩, .envelope ⟨none, "Poll not found.", none, none⟩) ∧
    deleteRouteDelete ⟨[⟨1, "Some title", none, 7⟩], [], [], 10⟩ 8 1 true
        = (⟨[⟨1, "Some title", none, 7⟩], [], [], 10⟩, createPermissionError) :=
  ⟨((C5_not_found_before_ownership ⟨[], [], [], 0⟩ 1 5).1 (by rfl)).1 true,
    (((C5_not_found_before_ownership ⟨[⟨1, "Some title", none, 7⟩], [], [], 10⟩ 8 1).2
      ⟨1, "Some title", none, 7⟩ (by rfl) (by decide)).2.2.1 true)⟩

/-! ## Claims about validation -/

theorem zOptionText_ok {s t : String} (h : zOptionText s = .ok t) : t = jsTrim s := by
  unfold zOptionText at h
  dsimp only at h
  split at h <;> split at h <;> simp_all [List.isEmpty_iff]

theorem zOptionText_error_ne_nil {s : String} {es : List String}
    (h : zOptionText s = .error es) : es ≠ [] := by
  unfold zOptionText at h
  dsimp only at h
  split at h <;> split at h <;> simp_all [List.isEmpty_iff] <;>
    exact fun hnil => List.noConfusion (hnil ▸ h)

theorem elem_ok_of_collectErrs_nil :
    ∀ (options : List String),
      collectErrs (options.map zOptionText) = [] →
      ∀ s ∈ options, zOptionText s = .ok (jsTrim s) := by
  intro options
  induction options with
  | nil => intro _ s hs; simp at hs
  | cons a l ih =>
    intro h s hs
    rw [List.map_cons] at h
    unfold collectErrs at h
    rw [List.foldr_cons] at h
    rcases ha : zOptionText a with es | v
    · rw [ha] at h
      dsimp only at h
      exact absurd (List.append_eq_nil.mp h).1 (zOptionText_error_ne_nil ha)
    · rw [ha] at h
      dsimp only at h
      rcases List.mem_cons.mp hs with h1 | h1
      · subst h1
        rw [ha, zOptionText_ok ha]
      · exact ih h s h1

theorem collectOks_map_ok {α β : Type} (l : List α) (f : α → Except (List String) β)
    (g : α → β) (h : ∀ s ∈ l, f s = .ok (g s)) : collectOks (l.map f) = l.map g := by
  induction l with
  | nil => rfl
  | cons a l ih =>
    rw [List.map_cons, List.map_cons]
    unfold collectOks
    rw [List.filterMap_cons, h a (List.mem_cons_self _ _)]
    dsimp only
    exact congrArg _ (ih (fun s hs => h s (List.mem_cons_of_mem _ hs)))

theorem nodup_of_card_toFinset_eq_length {α : Type} [DecidableEq α] (l : List α)
    (h : l.toFinset.card = l.length) : l.Nodup := by
  rw [List.card_toFinset] at h
  have : l.dedup = l := (List.dedup_sublist l).eq_of_length h
  rw [← this]
  exact List.nodup_dedup l

theorem zCreateOptions_ok {options texts : List String}
    (h : zCreateOptions options = .ok texts) :
    texts = options.map jsTrim ∧ (texts.map jsToLower).Nodup := by
  unfold zCreateOptions at h
  dsimp only at h
  split at h
  · -- options.length < 2: the length message makes the issue list non-empty
    split at h <;> split at h
    all_goals first
      | exact absurd h (by simp)
      | (rename_i hempty
         exact absurd (List.append_eq_nil.mp
           ((List.append_eq_nil.mp (List.isEmpty_iff.mp hempty)).2)).1 (by simp))
  · split at h
    · -- options.length > 10
      split at h
      all_goals first
        | exact absurd h (by simp)
        | (rename_i hempty
           exact absurd (List.append_eq_nil.mp
             ((List.append_eq_nil.mp (List.isEmpty_iff.mp hempty)).2)).2 (by simp))
    · -- no length issues
      split at h
      · rename_i hempty
        have hnil := List.isEmpty_iff.mp hempty
        have helem : collectErrs (options.map zOptionText) = [] :=
          (List.append_eq_nil.mp hnil).1
        have htexts : collectOks (options.map zOptionText) = options.map jsTrim :=
          collectOks_map_ok options zOptionText jsTrim
            (elem_ok_of_collectErrs_nil options helem)
        split at h
        · rename_i hcard
          injection h with h2
          subst h2
          rw [htexts] at hcard ⊢
          refine ⟨rfl, nodup_of_card_toFinset_eq_length _ ?_⟩
          rw [hcard]
          simp [List.length_map]
        · exact absurd h (by simp)
      · exact absurd h (by simp)

theorem validateCreate_ok_nodup {t d : Option String} {o : List String} {data : CreateData}
    (h : validateCreatePollData t d o = .ok data) :
    (o.map (fun s => jsToLower (jsTrim s))).Nodup := by
  unfold validateCreatePollData at h
  rcases h1 : zTitle t with e1 | v1 <;>
    rcases h2 : zDescription (descFallback d) with e2 | v2 <;>
      rcases h3 : zCreateOptions o with e3 | v3 <;>
        rw [h1, h2, h3] at h <;> dsimp only at h
  all_goals first
    | exact VResult.noConfusion h
    | (have hn := (zCreateOptions_ok h3).2
       rw [(zCreateOptions_ok h3).1, List.map_map] at hn
       exact hn)

/-- **C4** (amended): the refactored create route rejects every submission
whose option texts contain a duplicate under case-insensitive trimmed
comparison with the validation-error envelope and leaves the database
untouched; the legacy `createPoll` server action, whose schema has no
uniqueness refinement, accepts such submissions — see the counterexample. -/
theorem C4_route_create_rejects_duplicates (db : DB) (user : Id)
    (traw draw : Option String) (options : List String) (pOk oOk cOk : Bool)
    (hdup : ¬ (options.map (fun s => jsToLower (jsTrim s))).Nodup) :
    (∃ errs, (createRoutePost db user traw draw options pOk oOk cOk).2
        = createValidationError errs) ∧
    (createRoutePost db user traw draw options pOk oOk cOk).1 = db := by
  rcases hv : validateCreatePollData traw draw options with data | errs
  · exact absurd (validateCreate_ok_nodup hv) hdup
  · unfold createRoutePost
    rw [hv]
    exact ⟨⟨errs, rfl⟩, rfl⟩

/-- Counterexample for C4: the legacy `createPoll` server action accepts
the duplicate pair `"Aa"` / `"aa"` (equal after trimming and lowering),
inserts the poll and both option rows, and reports success. -/
theorem C4_counterexample :
    (createPollAction ⟨[], [], [], 100⟩ (some 1) (some "Hello!") none
        ["Aa", "aa"] true true true).2
      = .envelope ⟨some true, "Poll created successfully!", some 100, none⟩ ∧
    (createPollAction ⟨[], [], [], 100⟩ (some 1) (some "Hello!") none
        ["Aa", "aa"] true true true).1.polls = [⟨100, "Hello!", none, 1⟩] ∧
    (createPollAction ⟨[], [], [], 100⟩ (some 1) (some "Hello!") none
        ["Aa", "aa"] true true true).1.options
      = [⟨101, 100, "Aa"⟩, ⟨102, 100, "aa"⟩] := by decide

/-- Witness for C4: the route rejects the same duplicate pair without
touching the database. -/
theorem C4_witness :
    (createRoutePost ⟨[], [], [], 100⟩ 1 (some "Hello!") none ["Aa", "aa"]
        true true true).1 = ⟨[], [], [], 100⟩ :=
  (C4_route_create_rejects_duplicates ⟨[], [], [], 100⟩ 1 (some "Hello!") none
    ["Aa", "aa"] true true true (by decide)).2

theorem validateCreate_fail_nonempty (t d : Option String) (o : List String)
    (errs : List (String × List String))
    (h : validateCreatePollData t d o = .fail errs) : errs ≠ [] := by
  unfold validateCreatePollData at h
  rcases h1 : zTitle t with e1 | v1 <;>
    rcases h2 : zDescription (descFallback d) with e2 | v2 <;>
      rcases h3 : zCreateOptions o with e3 | v3 <;>
        rw [h1, h2, h3] at h <;> dsimp only at h
  all_goals first
    | exact VResult.noConfusion h
    | (injection h with hx
       intro hnil
       rw [← hx] at hnil
       simp at hnil)

theorem validateUpdate_no_throw (t d : Option String) (f : OptionsField)
    (hf : f ≠ .malformed) : ∃ v, validateUpdatePollData t d f = .ok v := by
  cases f with
  | malformed => exact absurd rfl hf
  | nonArray => exact ⟨_, rfl⟩
  | items xs => exact ⟨_, rfl⟩

theorem validateUpdate_fail_nonempty (t d : Option String) (f : OptionsField)
    (v : VResult UpdateData) (errs : List (String × List String))
    (h : validateUpdatePollData t d f = .ok v) (hv : v = .fail errs) : errs ≠ [] := by
  subst hv
  cases f with
  | malformed => exact Except.noConfusion h
  | nonArray =>
    unfold validateUpdatePollData at h
    dsimp only at h
    injection h with hm
    rcases h1 : zTitle t with e1 | v1 <;>
      rcases h2 : zDescription (descFallback d) with e2 | v2 <;>
        rcases h3 : zUpdateOptions OptionsField.nonArray with e3 | v3 <;>
          rw [h1, h2, h3] at hm <;> dsimp only at hm
    all_goals first
      | exact VResult.noConfusion hm
      | (injection hm with hx
         intro hnil
         rw [← hx] at hnil
         simp at hnil)
  | items xs =>
    unfold validateUpdatePollData at h
    dsimp only at h
    injection h with hm
    rcases h1 : zTitle t with e1 | v1 <;>
      rcases h2 : zDescription (descFallback d) with e2 | v2 <;>
        rcases h3 : zUpdateOptions (OptionsField.items xs) with e3 | v3 <;>
          rw [h1, h2, h3] at hm <;> dsimp only at hm
    all_goals first
      | exact VResult.noConfusion hm
      | (injection hm with hx
         intro hnil
         rw [← hx] at hnil
         simp at hnil)

/-- **C9** (amended): `validateCreatePollData` cannot throw — no operation
in it can raise — and on failure it returns a non-empty per-field error
map; `validateUpdatePollData` likewise returns its result record with a
non-empty per-field error map for every parsed options field, but
propagates the `JSON.parse` exception when the raw options field is not
valid JSON (see the counterexample). -/
theorem C9_validation_failure_shape (t d : Option String) (o : List String)
    (f : OptionsField) :
    (∀ errs, validateCreatePollData t d o = .fail errs → errs ≠ []) ∧
    (f ≠ .malformed → ∃ v, validateUpdatePollData t d f = .ok v) ∧
    (∀ v errs, validateUpdatePollData t d f = .ok v → v = .fail errs → errs ≠ []) :=
  ⟨fun errs h => validateCreate_fail_nonempty t d o errs h,
   validateUpdate_no_throw t d f,
   fun v errs h hv => validateUpdate_fail_nonempty t d f v errs h hv⟩

/-- Counterexample for C9: on an options field that is not valid JSON,
`validateUpdatePollData` propagates the `JSON.parse` exception instead of
returning a field error map. -/
theorem C9_counterexample :
    validateUpdatePollData (some "A valid title") none OptionsField.malformed
      = Except.error "SyntaxError: Unexpected token in JSON" := rfl

/-- Witness for C9: a concrete failing create submission yields a
non-empty field map, and a concrete well-formed update payload does not
throw. -/
theorem C9_witness :
    (([("title", ["Required"]),
       ("options", ["You must provide at least two options"])] :
        List (String × List String)) ≠ []) ∧
    (∃ v, validateUpdatePollData (some "A valid title") none
        (.items [⟨none, some "Choice A"⟩, ⟨none, some "Choice B"⟩]) = .ok v) :=
  ⟨(C9_validation_failure_shape none none [] .nonArray).1 _ (by rfl),
   (C9_validation_failure_shape (some "A valid title") none []
      (.items [⟨none, some "Choice A"⟩, ⟨none, some "Choice B"⟩])).2.1 (by decide)⟩

/-! ## The vote-tally read path (`get_poll_results`) -/

/-- One element of the `options` JSON aggregate of `get_poll_results`. -/
structure OptionResult where
  id : Id
  text : String
  vote_count : Nat
deriving DecidableEq

/-- The row returned by `get_poll_results`.  (The `user_vote` scalar
subquery is outside this claim and not modelled.) -/
structure PollResults where
  id : Id
  title : String
  description : Option String
  createdBy : Id
  total_votes : Nat
  options : List OptionResult
deriving DecidableEq

/-- The `vote_counts` CTE: `select option_id, count(*) from votes where
poll_id = p_poll_id group by option_id` — one pair per distinct option id
among the poll's votes. -/
def voteCountsCTE (votes : List VoteRow) (pollId : Id) : List (Id × Nat) :=
  let vs := votes.filter (fun v => v.pollId == pollId)
  (dedupByAux (fun i : Id => i) [] (vs.map (fun v => v.optionId))).map
    (fun oid => (oid, (vs.filter (fun v => v.optionId == oid)).length))

/-- The left join on option id followed by `coalesce(vc.votes, 0)`. -/
def lookupVotes (vc : List (Id × Nat)) (oid : Id) : Nat :=
  match vc.find? (fun p => p.1 == oid) with
  | some p => p.2
  | none => 0

/-- The `poll_options_with_votes` CTE. -/
def pollOptionsWithVotes (db : DB) (pollId : Id) : List OptionResult :=
  (pollOptionsOf db pollId).map
    (fun o => ⟨o.id, o.text, lookupVotes (voteCountsCTE db.votes pollId) o.id⟩)

/-- `get_poll_results(p_poll_id)`: no row is produced when the poll does
not resolve or when the cross join with `poll_options_with_votes` is
empty; otherwise `total_votes` sums the option vote counts and `options`
aggregates the per-option rows. -/
def get_poll_results (db : DB) (pollId : Id) : Option PollResults :=
  match getPollById db pollId with
  | none => none
  | some p =>
    let powv := pollOptionsWithVotes db pollId
    if powv.isEmpty then none
    else some ⟨p.id, p.title, p.description, p.createdBy,
      (powv.map (fun r => r.vote_count)).sum, powv⟩

theorem find?_votes (vs : List VoteRow) :
    ∀ (l : List Id) (oid : Id), oid ∈ l →
      (l.map (fun o => (o, (vs.filter (fun v => v.optionId == o)).length))).find?
        (fun p => p.1 == oid)
      = some (oid, (vs.filter (fun v => v.optionId == oid)).length) := by
  intro l
  induction l with
  | nil => intro oid h; simp at h
  | cons a l ih =>
    intro oid h
    rw [List.map_cons, List.find?_cons]
    by_cases ha : a = oid
    · subst ha; simp
    · dsimp only
      rw [show (a == oid) = false by simp [ha]]
      refine ih oid ?_
      rcases List.mem_cons.mp h with h1 | h1
      · exact absurd h1.symm ha
      · exact h1

theorem lookupVotes_eq (votes : List VoteRow) (pollId oid : Id) :
    lookupVotes (voteCountsCTE votes pollId) oid
      = ((votes.filter (fun v => v.pollId == pollId)).filter
          (fun v => v.optionId == oid)).length := by
  unfold lookupVotes voteCountsCTE
  dsimp only
  by_cases hmem : oid ∈ (votes.filter (fun v => v.pollId == pollId)).map
      (fun v => v.optionId)
  · have hd : oid ∈ dedupByAux (fun i : Id => i) []
        ((votes.filter (fun v => v.pollId == pollId)).map (fun v => v.optionId)) := by
      have hcov := key_covered_dedupByAux (fun i : Id => i)
        ((votes.filter (fun v => v.pollId == pollId)).map (fun v => v.optionId)) []
        hmem (by simp)
      simpa using hcov
    rw [find?_votes _ _ oid hd]
  · have hfind : ((dedupByAux (fun i : Id => i) []
        ((votes.filter (fun v => v.pollId == pollId)).map (fun v => v.optionId))).map
          (fun o => (o, ((votes.filter (fun v => v.pollId == pollId)).filter
            (fun v => v.optionId == o)).length))).find? (fun p => p.1 == oid) = none := by
      apply List.find?_eq_none.mpr
      intro p hp
      rcases List.mem_map.mp hp with ⟨o, ho, hpo⟩
      have hol : o ∈ (votes.filter (fun v => v.pollId == pollId)).map
          (fun v => v.optionId) :=
        List.Sublist.subset (dedupByAux_sublist _ _ _) ho
      have hne : o ≠ oid := fun he => hmem (he ▸ hol)
      rw [← hpo]
      simp [hne]
    rw [hfind]
    have hempty2 : (votes.filter (fun v => v.pollId == pollId)).filter
        (fun v => v.optionId == oid) = [] := by
      apply List.filter_eq_nil_iff.mpr
      intro v hv hb
      exact hmem (List.mem_map.mpr ⟨v, hv, by simpa using hb⟩)
    rw [hempty2]
    rfl

/-- **C2**: whenever the results read path produces a row, each reported
option carries `vote_count` equal to the number of the poll's votes
referencing that option id — 0 for an option with no matching votes — and
`total_votes` equals the sum of all option vote counts. -/
theorem C2_poll_results_tally (db : DB) (pollId : Id) (r : PollResults)
    (h : get_poll_results db pollId = some r) :
    r.options = (pollOptionsOf db pollId).map (fun o =>
      ⟨o.id, o.text, ((db.votes.filter (fun v => v.pollId == pollId)).filter
        (fun v => v.optionId == o.id)).length⟩) ∧
    r.total_votes = (r.options.map (fun e => e.vote_count)).sum := by
  unfold get_poll_results at h
  rcases hp : getPollById db pollId with _ | p
  · rw [hp] at h; exact Option.noConfusion h
  · rw [hp] at h
    dsimp only at h
    split at h
    · exact Option.noConfusion h
    · injection h with h2
      subst h2
      dsimp only
      constructor
      · unfold pollOptionsWithVotes
        apply List.map_congr_left
        intro o _
        rw [lookupVotes_eq]
      · rfl

/-- Witness for C2 at the spec's example distribution {O1:3, O2:2, O3:1}
with a fourth option receiving no votes: total 6, counts 3/2/1/0. -/
theorem C2_witness :
    (PollResults.mk 1 "Which option do you prefer" none 7 6
        [⟨2, "O1", 3⟩, ⟨3, "O2", 2⟩, ⟨4, "O3", 1⟩, ⟨5, "O4", 0⟩]).options
      = (pollOptionsOf ⟨[⟨1, "Which option do you prefer", none, 7⟩],
          [⟨2, 1, "O1"⟩, ⟨3, 1, "O2"⟩, ⟨4, 1, "O3"⟩, ⟨5, 1, "O4"⟩],
          [⟨10, 1, 2, 21⟩, ⟨11, 1, 2, 22⟩, ⟨12, 1, 2, 23⟩, ⟨13, 1, 3, 21⟩,
           ⟨14, 1, 3, 22⟩, ⟨15, 1, 4, 21⟩], 100⟩ 1).map (fun o =>
        ⟨o.id, o.text,
          (((⟨[⟨1, "Which option do you prefer", none, 7⟩],
              [⟨2, 1, "O1"⟩, ⟨3, 1, "O2"⟩, ⟨4, 1, "O3"⟩, ⟨5, 1, "O4"⟩],
              [⟨10, 1, 2, 21⟩, ⟨11, 1, 2, 22⟩, ⟨12, 1, 2, 23⟩, ⟨13, 1, 3, 21⟩,
               ⟨14, 1, 3, 22⟩, ⟨15, 1, 4, 21⟩], 100⟩ : DB).votes.filter
            (fun v => v.pollId == 1)).filter
              (fun v => v.optionId == o.id)).length⟩) ∧
    (PollResults.mk 1 "Which option do you prefer" none 7 6
        [⟨2, "O1", 3⟩, ⟨3, "O2", 2⟩, ⟨4, "O3", 1⟩, ⟨5, "O4", 0⟩]).total_votes
      = ((PollResults.mk 1 "Which option do you prefer" none 7 6
          [⟨2, "O1", 3⟩, ⟨3, "O2", 2⟩, ⟨4, "O3", 1⟩, ⟨5, "O4", 0⟩]).options.map
            (fun e => e.vote_count)).sum :=
  C2_poll_results_tally
    ⟨[⟨1, "Which option do you prefer", none, 7⟩],
      [⟨2, 1, "O1"⟩, ⟨3, 1, "O2"⟩, ⟨4, 1, "O3"⟩, ⟨5, 1, "O4"⟩],
      [⟨10, 1, 2, 21⟩, ⟨11, 1, 2, 22⟩, ⟨12, 1, 2, 23⟩, ⟨13, 1, 3, 21⟩,
       ⟨14, 1, 3, 22⟩, ⟨15, 1, 4, 21⟩], 100⟩ 1
    (PollResults.mk 1 "Which option do you prefer" none 7 6
      [⟨2, "O1", 3⟩, ⟨3, "O2", 2⟩, ⟨4, "O3", 1⟩, ⟨5, "O4", 0⟩])
    (by decide)

end AlxPolly
